import Mathlib

/-!
Verification of the AntiGravity-AutoAccept DOM observer payload and CDP
connection manager, shallowly embedded from the repository sources
(src/src/scripts/DOMObserver.js, v3 payload, and the ConnectionManager
transport layer).
-/

namespace AutoAccept

/-! String helpers mirroring the JavaScript string operations used by the
payload (startsWith, includes, trim, toLowerCase, length, substring). -/

/-- Whitespace as trimmed by String.prototype.trim (ASCII subset). -/
def isWsChar (c : Char) : Bool :=
  c == ' ' || c == '\t' || c == '\n' || c == '\r'

/-- JS String.prototype.trim. -/
def jsTrim (s : String) : String :=
  ⟨((s.toList.dropWhile isWsChar).reverse.dropWhile isWsChar).reverse⟩

/-- JS String.prototype.toLowerCase (ASCII). -/
def jsToLower (s : String) : String :=
  ⟨s.toList.map Char.toLower⟩

/-- JS String length. -/
def jsLen (s : String) : Nat :=
  s.toList.length

/-- JS String.prototype.substring(0, n). -/
def jsTake (s : String) (n : Nat) : String :=
  ⟨s.toList.take n⟩

/-- Character-list version of startsWith: does the second list begin the first. -/
def charsPre : List Char → List Char → Bool
  | [], _ => true
  | _ :: _, [] => false
  | a :: as, b :: bs => a == b && charsPre as bs

/-- JS String.prototype.startsWith: s starts with pre. -/
def jsStartsWith (s pre : String) : Bool :=
  charsPre pre.toList s.toList

/-- Occurrence of a character list anywhere in another. -/
def charsIn (needle : List Char) : List Char → Bool
  | [] => needle.isEmpty
  | c :: rest => charsPre needle (c :: rest) || charsIn needle rest

/-- JS String.prototype.includes: sub occurs in s. -/
def jsIncludes (s sub : String) : Bool :=
  charsIn sub.toList s.toList

/-- JS (a || b || ''): first truthy of two nullable attribute reads. -/
def attrPair (a b : Option String) : String :=
  match a with
  | some s => if s == "" then (match b with | some t => t | none => "") else s
  | none => match b with | some t => t | none => ""

example : jsToLower "Run Alt+D" = "run alt+d" := rfl
example : jsTrim "  hi " = "hi" := rfl
example : jsStartsWith "run alt+d" "run " = true := rfl
example : jsIncludes "data-alwaysallow-x" "allow" = true := rfl
example : jsLen "run alt+d" = 9 := rfl

/-! DOM model.  An element carries the attributes and properties the payload
reads; `shadow` is the child list of an attached shadow root (empty when the
element hosts none) and `children` the light-DOM element children.  `ownText`
is the element's directly-owned text. -/

structure ElemData where
  tag : String
  dataTestid : Option String := none
  dataAction : Option String := none
  role : Option String := none
  tabindex : Option String := none
  ariaDisabled : Option String := none
  vscodeContext : Bool := false
  classes : List String := []
  disabled : Bool := false
  onclick : Bool := false
  ownText : String := ""

inductive Elem : Type where
  | node (data : ElemData) (shadow : List Elem) (children : List Elem)

def Elem.data : Elem → ElemData
  | .node d _ _ => d

def Elem.shadow : Elem → List Elem
  | .node _ sh _ => sh

def Elem.children : Elem → List Elem
  | .node _ _ ch => ch

mutual
/-- DOM textContent: concatenation of the element's own text and that of its
light-DOM descendants (shadow content is not part of a host's textContent). -/
def textContent : Elem → String
  | .node d _ ch => d.ownText ++ textList ch
def textList : List Elem → String
  | [] => ""
  | e :: es => textContent e ++ textList es
end

mutual
/-- An element of the light subtree carries the codicon loading class. -/
def containsLoading : Elem → Bool
  | .node d _ ch => d.classes.contains "codicon-loading" || anyLoading ch
def anyLoading : List Elem → Bool
  | [] => false
  | e :: es => containsLoading e || anyLoading es
end

/-- querySelector of a loading spinner among proper light-DOM descendants. -/
def hasLoadingDesc (e : Elem) : Bool :=
  anyLoading e.children

mutual
/-- Does some element of the light subtree (root included) satisfy p, in the
manner of document.querySelector. -/
def someElem (p : Elem → Bool) : Elem → Bool
  | .node d sh ch => p (.node d sh ch) || someList p ch
def someList (p : Elem → Bool) : List Elem → Bool
  | [] => false
  | e :: es => someElem p e || someList p es
end

/-- The class attribute as the DOM serializes it. -/
def classAttr (e : Elem) : String :=
  String.intercalate " " e.data.classes

/-- isAgentPanel from the payload: one of three structural markers present. -/
def isAgentPanel (body : Elem) : Bool :=
  someElem (fun e => e.data.classes.contains "react-app-container") body ||
  someElem (fun e => jsIncludes (classAttr e) "agent") body ||
  someElem (fun e => e.data.vscodeContext) body

/-! Matching predicates, translated clause by clause from findButton and
closestClickable in the payload. -/

/-- Priority shortcut: data-testid/data-action contains an allow keyword and
the element is itself button-like (findButton lines for testId). -/
def shortcutHit (n : Elem) : Bool :=
  (let testId := jsToLower (attrPair n.data.dataTestid n.data.dataAction)
   jsIncludes testId "alwaysallow" || jsIncludes testId "always-allow" ||
     jsIncludes testId "allow") &&
  (let tag1 := jsToLower n.data.tag
   tag1 == "button" || jsIncludes tag1 "button" || n.data.role == some "button" ||
     jsIncludes tag1 "btn")

/-- Normalized rendered text of an element: textContent, trimmed, lowered. -/
def textOf (n : Elem) : String :=
  jsToLower (jsTrim (textContent n))

/-- Text match rule of findButton: exact equality, bare prefix for phrases of
length at least 5 with a 3x cap, or word-boundary prefix with a 5x cap. -/
def isMatch (text nodeText : String) : Bool :=
  nodeText == text ||
  (decide (5 ≤ jsLen text) && jsStartsWith nodeText text &&
    decide (jsLen nodeText ≤ 3 * jsLen text)) ||
  (jsStartsWith nodeText (text ++ " ") && decide (jsLen nodeText ≤ 5 * jsLen text))

/-- Clickable test of closestClickable's while loop. -/
def clickablePred (e : Elem) : Bool :=
  let tag := jsToLower e.data.tag
  tag == "button" || jsIncludes tag "button" || jsIncludes tag "btn" ||
    e.data.role == some "button" || e.data.classes.contains "cursor-pointer" ||
    e.data.onclick || e.data.tabindex == some "0"

/-- First suffix of the ancestor chain whose head passes the clickable test. -/
def dropToClickable : List (Elem × Nat) → Option (List (Elem × Nat))
  | [] => none
  | p :: rest => if clickablePred p.1 then some (p :: rest) else dropToClickable rest

/-- closestClickable over an ancestor chain (innermost first, body excluded):
the suffix headed by the nearest clickable ancestor, or the whole chain
(original node) when none qualifies. -/
def closestChain (chain : List (Elem × Nat)) : List (Elem × Nat) :=
  match dropToClickable chain with
  | some c => c
  | none => chain

/-- Acceptance gate on the resolved clickable (tag2 test of findButton),
loosened for the two reveal phrases. -/
def clickGateOk (text : String) (ck : Elem) : Bool :=
  let tag2 := jsToLower ck.data.tag
  tag2 == "button" || jsIncludes tag2 "button" || ck.data.role == some "button" ||
    jsIncludes tag2 "btn" || ck.data.classes.contains "cursor-pointer" ||
    ck.data.onclick || ck.data.tabindex == some "0" ||
    text == "expand" || text == "requires input"

/-- Reject filters on the resolved clickable: disabled, aria-disabled,
loading class, or loading-spinner descendant. -/
def rejectFilter (ck : Elem) : Bool :=
  ck.data.disabled || ck.data.ariaDisabled == some "true" ||
    ck.data.classes.contains "loading" || hasLoadingDesc ck

/-- One level of the bounded structural path: TAG[siblingIndex]. -/
def pathPart (p : Elem × Nat) : String :=
  p.1.data.tag ++ "[" ++ Nat.repr p.2 ++ "]"

/-- domPath: up to 4 levels starting from the element itself, innermost last,
joined by slashes (the chain already excludes document.body). -/
def domPath (chain : List (Elem × Nat)) : String :=
  String.intercalate "/" (((chain.take 4).map pathPart).reverse)

/-- Cooldown fingerprint: bounded structural path plus the first 30 characters
of the element's normalized text. -/
def fingerprint : List (Elem × Nat) → String
  | [] => ":"
  | (e, i) :: rest => domPath ((e, i) :: rest) ++ ":" ++ jsTake (textOf e) 30

def COOLDOWN_MS : Nat := 5000
def EXPAND_COOLDOWN_MS : Nat := 8000
def PRUNE_INTERVAL_MS : Nat := 30000

/-- Applicable cooldown window: 8s for the reveal phrases, 5s otherwise. -/
def cooldownFor (text : String) : Nat :=
  if text == "expand" || text == "requires input" then EXPAND_COOLDOWN_MS
  else COOLDOWN_MS

/-- Cooldown ledger lookup of findButton: an entry for the fingerprint is
nonzero and younger than the applicable window. -/
def cooldownHit (cds : List (String × Nat)) (now : Nat) (text fp : String) : Bool :=
  let lastClick := (cds.lookup fp).getD 0
  lastClick != 0 && decide ((now : Int) - (lastClick : Int) < (cooldownFor text : Int))

/-- JS object assignment clickCooldowns[key] = now. -/
def cdInsert (k : String) (v : Nat) (cds : List (String × Nat)) : List (String × Nat) :=
  (k, v) :: cds.filter (fun p => !(p.1 == k))

/-! The element search.  Outcome of examining one walker node: a found
chain (clickable element first, then its recorded ancestors), an abort of the
whole findButton call (the return null branches on a rejected or cooled-down
real match), or a skip to the next walker node. -/

inductive ScanR : Type where
  | found (chain : List (Elem × Nat))
  | abort
  | skip

/-- Per-node body of the findButton while loop, shortcut and text path, with
the cooldown ledger access abstracted as hit (the exact test the source
performs on clickCooldowns at a fingerprint). -/
def checkNodeH (hit : String → Bool) (text : String) (anc : List (Elem × Nat))
    (n : Elem) (i : Nat) : ScanR :=
  if shortcutHit n then ScanR.found ((n, i) :: anc)
  else
    let nodeText := textOf n
    if 50 < jsLen nodeText then ScanR.skip
    else if isMatch text nodeText then
      match closestChain ((n, i) :: anc) with
      | [] => ScanR.skip
      | ck :: rest =>
        if clickGateOk text ck.1 then
          if rejectFilter ck.1 then ScanR.abort
          else if hit (fingerprint (ck :: rest)) then ScanR.abort
          else ScanR.found (ck :: rest)
        else ScanR.skip
    else ScanR.skip

mutual
/-- Visit one element: search its shadow root first by a nested findButton call
(whose abort is just a null result for the outer walk), then examine the node,
then descend into its children. -/
def walkElemH (hit : String → Bool) (text : String) (anc : List (Elem × Nat)) :
    Elem → Nat → ScanR
  | .node d sh ch, i =>
    match walkShadowTopH hit text sh with
    | .found c => ScanR.found c
    | _ =>
      match checkNodeH hit text anc (.node d sh ch) i with
      | .found c => ScanR.found c
      | .abort => ScanR.abort
      | .skip => walkIdxH hit text ((Elem.node d sh ch, i) :: anc) ch 0
/-- Walk a sibling list with real sibling indices. -/
def walkIdxH (hit : String → Bool) (text : String) (anc : List (Elem × Nat)) :
    List Elem → Nat → ScanR
  | [], _ => ScanR.skip
  | n :: rest, i =>
    match walkElemH hit text anc n i with
    | .found c => ScanR.found c
    | .abort => ScanR.abort
    | .skip => walkIdxH hit text anc rest (i + 1)
/-- Walk the top level of a shadow root: such children have no parentElement,
so their ancestor chain is empty and their computed sibling index is 0. -/
def walkShadowTopH (hit : String → Bool) (text : String) : List Elem → ScanR
  | [] => ScanR.skip
  | n :: rest =>
    match walkElemH hit text [] n 0 with
    | .found c => ScanR.found c
    | .abort => ScanR.abort
    | .skip => walkShadowTopH hit text rest
end

/-- findButton over a root, hit-parameterized: walks the root's proper
descendants; an abort anywhere in the call yields null. -/
def findButtonH (hit : String → Bool) (text : String) (body : Elem) :
    Option (List (Elem × Nat)) :=
  match body with
  | .node _ _ ch =>
    match walkIdxH hit text [] ch 0 with
    | .found c => some c
    | _ => none

/-- findButton(root, text) of the payload, with the closure-scoped
clickCooldowns ledger and the current time. -/
def findButton (cds : List (String × Nat)) (now : Nat) (body : Elem)
    (text : String) : Option (List (Elem × Nat)) :=
  findButtonH (fun fp => cooldownHit cds now text fp) text body

/-! The two-pass scan. -/

/-- Built-in action phrases followed by the user-configured custom phrases. -/
def buttonTexts (customTexts : List String) : List String :=
  ["run", "accept", "always allow", "allow this conversation", "allow",
   "retry", "continue"] ++ customTexts

/-- The reveal-pass phrases. -/
def expandTexts : List String := ["expand", "requires input"]

/-- pruneCooldowns: at most every 30s, drop entries older than twice the
reveal cooldown; returns the ledger and the lastPrune timestamp. -/
def pruneCooldowns (cds : List (String × Nat)) (lastPrune now : Nat) :
    List (String × Nat) × Nat :=
  if (now : Int) - (lastPrune : Int) < (PRUNE_INTERVAL_MS : Int) then (cds, lastPrune)
  else
    (cds.filter (fun p =>
      !(decide ((now : Int) - (p.2 : Int) > ((EXPAND_COOLDOWN_MS : Int) * 2)))), now)

/-- First phrase of a catalog with a non-null findButton result. -/
def firstHit (cds : List (String × Nat)) (now : Nat) (body : Elem) :
    List String → Option (String × List (Elem × Nat))
  | [] => none
  | t :: ts =>
    match findButton cds now body t with
    | some ch => some (t, ch)
    | none => firstHit cds now body ts

/-- In-context mutable state of the injected matcher. -/
structure MatcherState where
  cooldowns : List (String × Nat)
  lastPrune : Nat
  paused : Bool
deriving DecidableEq

/-- scanAndClick: prune, pause guard, deferred webview guard, then pass 1 over
the action catalog and pass 2 over the reveal catalog; the first qualifying
match is clicked (returned in the click list) and its fingerprint recorded. -/
def scanAndClick (st : MatcherState) (body : Elem) (custom : List String)
    (now : Nat) : Option String × MatcherState × List (List (Elem × Nat)) :=
  let pr := pruneCooldowns st.cooldowns st.lastPrune now
  let cds := pr.1
  let lp := pr.2
  if st.paused then (none, ⟨cds, lp, st.paused⟩, [])
  else if !isAgentPanel body then (none, ⟨cds, lp, st.paused⟩, [])
  else
    match firstHit cds now body (buttonTexts custom) with
    | some (t, ch) =>
      (some ("clicked:" ++ t), ⟨cdInsert (fingerprint ch) now cds, lp, st.paused⟩, [ch])
    | none =>
      match firstHit cds now body expandTexts with
      | some (t, ch) =>
        (some ("clicked:" ++ t), ⟨cdInsert (fingerprint ch) now cds, lp, st.paused⟩, [ch])
      | none => (none, ⟨cds, lp, st.paused⟩, [])

/-! The injected script as a whole (the IIFE the manager evaluates). -/

/-- Execution-context state observable across injections. -/
structure Ctx where
  observerActive : Bool
  paused : Bool
  observerCount : Nat
  matcher : MatcherState
deriving DecidableEq

/-- One evaluation of the payload: idempotency guard, then fresh install with
an immediate initial scan whose result is discarded, observer wiring, and the
install status as the evaluation value; returns the value, the new context
state, and the clicks performed. -/
def evalScript (ctx : Ctx) (body : Elem) (custom : List String) (now : Nat) :
    String × Ctx × List (List (Elem × Nat)) :=
  if ctx.observerActive then ("already-active", ctx, [])
  else
    let st0 : MatcherState := ⟨[], now, false⟩
    let r := scanAndClick st0 body custom now
    ("observer-installed", ⟨true, false, ctx.observerCount + 1, r.2.1⟩, r.2.2)

/-- Normalized text of the element a found chain designates (its head). -/
def chainText : List (Elem × Nat) → String
  | [] => ""
  | (e, _) :: _ => textOf e

/-- Disabled property of the element a found chain designates. -/
def chainDisabled : List (Elem × Nat) → Bool
  | [] => false
  | (e, _) :: _ => e.data.disabled

/-! Control-channel transport (ConnectionManager pending-request ledger).
_send allocates id = ++msgId, stores a pending entry with a live timer;
a correlated response resolves and deletes it; the timer firing deletes and
rejects it (the timer is cancelled whenever the entry leaves the map);
stop()'s _clearPending cancels all timers and clears the map without
resolving or rejecting anything. -/

inductive TEvent : Type where
  | send
  | response (id : Nat)
  | timeout (id : Nat)
  | stop
deriving DecidableEq

structure TransportState where
  msgId : Nat
  pending : List Nat
  resolved : List Nat
  rejected : List Nat
deriving DecidableEq

def tInit : TransportState := ⟨0, [], [], []⟩

/-- One transport transition.  A timeout or response for an id no longer in
the map is a no-op, exactly as in _onMessage's pending.has check and the
cleared timers of _clearPending. -/
def tstep (s : TransportState) (e : TEvent) : TransportState :=
  match e with
  | .send =>
    { s with msgId := s.msgId + 1, pending := s.pending ++ [s.msgId + 1] }
  | .response i =>
    if i ∈ s.pending then
      { s with pending := s.pending.filter (fun j => !(j == i)),
               resolved := i :: s.resolved }
    else s
  | .timeout i =>
    if i ∈ s.pending then
      { s with pending := s.pending.filter (fun j => !(j == i)),
               rejected := i :: s.rejected }
    else s
  | .stop => { s with pending := [] }

def trun (s : TransportState) (es : List TEvent) : TransportState :=
  es.foldl tstep s

/-- Let every live per-request timer fire. -/
def settleAll (s : TransportState) : TransportState :=
  trun s (s.pending.map TEvent.timeout)

/-- The id was allocated by some _send call. -/
def sentId (s : TransportState) (i : Nat) : Prop :=
  1 ≤ i ∧ i ≤ s.msgId

/-! Claim C1: short-phrase matching. -/

/-- A lone button whose rendered text is the run control's real label. -/
def c1btn : Elem := Elem.node { tag := "BUTTON", ownText := "Run Alt+d" } [] []

def c1tree : Elem := Elem.node { tag := "BODY" } [] [c1btn]

/-- C1 counterexample: the phrase run has length 3 < 5, the candidate's
normalized text is "run alt+d", not equal to the phrase, the element carries
no allow shortcut attribute, and findButton still returns it — through the
word-boundary prefix rule, which the source applies at every phrase length. -/
theorem C1_counterexample :
    jsLen "run" < 5 ∧ shortcutHit c1btn = false ∧
    (findButton [] 0 c1tree "run").map chainText = some "run alt+d" ∧
    ("run alt+d" : String) ≠ "run" :=
  ⟨by decide, rfl, rfl, by decide⟩

/-- C1 amended: a phrase of length < 5 matches only via exact equality or via
the word-boundary prefix rule (phrase followed by a space, text at most 5x the
phrase length); the bare prefix rule indeed requires phrase length at least 5. -/
theorem C1_amended (text nodeText : String) (h : jsLen text < 5) :
    isMatch text nodeText = true ↔
      nodeText = text ∨
      (jsStartsWith nodeText (text ++ " ") = true ∧ jsLen nodeText ≤ 5 * jsLen text) := by
  have h5 : ¬ (5 ≤ jsLen text) := by omega
  simp [isMatch, h5]

/-- C1 amended witness at phrase "run" and candidate text "run alt+d". -/
theorem C1_amended_witness :
    jsLen "run" < 5 ∧
    (isMatch "run" "run alt+d" = true ↔
      ("run alt+d" : String) = "run" ∨
      (jsStartsWith "run alt+d" ("run" ++ " ") = true ∧
        jsLen "run alt+d" ≤ 5 * jsLen "run")) :=
  ⟨by decide, C1_amended "run" "run alt+d" (by decide)⟩

/-! Claim C3: the 50-character text cap. -/

/-- A button-like element with an allow test id and a 60-character text. -/
def c3btn : Elem :=
  Elem.node { tag := "BUTTON", dataTestid := some "allow",
              ownText := "xxxxxxxxxxxxxxxxxxxxxxxxxxxxxxxxxxxxxxxxxxxxxxxxxxxxxxxxxxxx" } [] []

def c3tree : Elem := Elem.node { tag := "BODY" } [] [c3btn]

/-- C3 counterexample: an element whose normalized text has 60 characters is
returned by findButton — the data-testid allow shortcut runs before the text
cap and bypasses it. -/
theorem C3_counterexample :
    (findButton [] 0 c3tree "run").map chainText =
      some "xxxxxxxxxxxxxxxxxxxxxxxxxxxxxxxxxxxxxxxxxxxxxxxxxxxxxxxxxxxx" ∧
    50 < jsLen "xxxxxxxxxxxxxxxxxxxxxxxxxxxxxxxxxxxxxxxxxxxxxxxxxxxxxxxxxxxx" :=
  ⟨rfl, by decide⟩

/-- C3 amended: the text-matching path never accepts a walker node whose
normalized text exceeds 50 characters — such a node is skipped outright
(neither matched nor aborting) whenever the allow shortcut does not apply;
only the shortcut can return long-text elements. -/
theorem C3_amended (hit : String → Bool) (text : String) (anc : List (Elem × Nat))
    (n : Elem) (i : Nat) (hlong : 50 < jsLen (textOf n))
    (hshort : shortcutHit n = false) :
    checkNodeH hit text anc n i = ScanR.skip := by
  simp [checkNodeH, hshort, hlong]

/-- A long-text element without any shortcut attribute. -/
def c3w : Elem :=
  Elem.node { tag := "DIV",
              ownText := "xxxxxxxxxxxxxxxxxxxxxxxxxxxxxxxxxxxxxxxxxxxxxxxxxxxxxxxxxxxx" } [] []

/-- C3 amended witness at a concrete 60-character node. -/
theorem C3_amended_witness :
    50 < jsLen (textOf c3w) ∧ shortcutHit c3w = false ∧
    checkNodeH (fun _ => false) "run" [] c3w 0 = ScanR.skip :=
  ⟨by decide, rfl, C3_amended (fun _ => false) "run" [] c3w 0 (by decide) rfl⟩

/-! Claim C4: disabled and loading elements. -/

def c4panel : Elem := Elem.node { tag := "DIV", classes := ["react-app-container"] } [] []

/-- A disabled button carrying the allow shortcut attribute. -/
def c4btn : Elem :=
  Elem.node { tag := "BUTTON", dataTestid := some "allow", disabled := true } [] []

def c4tree : Elem := Elem.node { tag := "BODY" } [] [c4panel, c4btn]

/-- C4 counterexample: a scan clicks a disabled element — the allow shortcut
returns it before the disabled/loading reject filters are consulted. -/
theorem C4_counterexample :
    c4btn.data.disabled = true ∧
    (scanAndClick ⟨[], 0, false⟩ c4tree [] 1000).1 = some "clicked:run" ∧
    (scanAndClick ⟨[], 0, false⟩ c4tree [] 1000).2.2.map chainDisabled = [true] :=
  ⟨rfl, rfl, rfl⟩

/-- C4 amended: on the text-matching path the property does hold — a match
resolving to a disabled/aria-disabled/loading element aborts the node check,
and an abort anywhere makes the whole findButton call return none without
continuing to later candidate nodes; only the shortcut path can click such
elements. -/
theorem C4_amended :
    (∀ (hit : String → Bool) (text : String) (anc : List (Elem × Nat)) (n : Elem)
       (i : Nat) (ck : Elem × Nat) (rest : List (Elem × Nat)),
       shortcutHit n = false →
       jsLen (textOf n) ≤ 50 →
       isMatch text (textOf n) = true →
       closestChain ((n, i) :: anc) = ck :: rest →
       clickGateOk text ck.1 = true →
       rejectFilter ck.1 = true →
       checkNodeH hit text anc n i = ScanR.abort) ∧
    (∀ (cds : List (String × Nat)) (now : Nat) (text : String) (bd : ElemData)
       (bsh : List Elem) (n : Elem) (rest : List Elem),
       walkElemH (fun fp => cooldownHit cds now text fp) text [] n 0 = ScanR.abort →
       findButton cds now (Elem.node bd bsh (n :: rest)) text = none) := by
  constructor
  · intro hit text anc n i ck rest hshort hlen hmatch hchain hgate hrej
    have hnl : ¬ (50 < jsLen (textOf n)) := by omega
    simp [checkNodeH, hshort, hnl, hmatch, hchain, hgate, hrej]
  · intro cds now text bd bsh n rest habort
    simp [findButton, findButtonH, walkIdxH, habort]

/-- A disabled button whose own text is the accept label. -/
def c4w : Elem :=
  Elem.node { tag := "BUTTON", ownText := "Accept", disabled := true } [] []

/-- An enabled accept button, placed after the disabled one. -/
def c4w2 : Elem := Elem.node { tag := "BUTTON", ownText := "Accept" } [] []

/-- C4 amended witness: the disabled accept match aborts, and the search over
a tree holding the disabled button first and a perfectly clickable accept
button after it still returns none. -/
theorem C4_amended_witness :
    rejectFilter c4w = true ∧
    checkNodeH (fun _ => false) "accept" [] c4w 0 = ScanR.abort ∧
    findButton [] 0 (Elem.node { tag := "BODY" } [] [c4w, c4w2]) "accept" = none :=
  ⟨rfl,
   C4_amended.1 (fun _ => false) "accept" [] c4w 0 (c4w, 0) [] rfl (by decide) rfl rfl
     rfl rfl,
   C4_amended.2 [] 0 "accept" { tag := "BODY" } [] c4w [c4w2] rfl⟩

/-! Claim C9: the allow-attribute priority shortcut. -/

/-- C9: a button-like element whose test-id or action attribute carries an
allow keyword is returned the moment the walker reaches it, for every phrase,
every ledger and every time — neither its text length, nor disabled or
loading state, nor any cooldown entry is consulted (the node check succeeds
unconditionally); consequently a scan whose first walker node is such an
element clicks it on every cycle. -/
theorem C9_shortcut :
    (∀ (hit : String → Bool) (text : String) (anc : List (Elem × Nat)) (n : Elem)
       (i : Nat), shortcutHit n = true →
       checkNodeH hit text anc n i = ScanR.found ((n, i) :: anc)) ∧
    (∀ (cds : List (String × Nat)) (now : Nat) (text : String) (d : ElemData)
       (ch rest : List Elem) (bd : ElemData) (bsh : List Elem),
      shortcutHit (Elem.node d [] ch) = true →
      findButton cds now (Elem.node bd bsh (Elem.node d [] ch :: rest)) text
        = some [(Elem.node d [] ch, 0)] ∧
      (∀ (st : MatcherState) (custom : List String),
        st.paused = false →
        isAgentPanel (Elem.node bd bsh (Elem.node d [] ch :: rest)) = true →
        (scanAndClick st (Elem.node bd bsh (Elem.node d [] ch :: rest)) custom now).1
          = some "clicked:run" ∧
        (scanAndClick st (Elem.node bd bsh (Elem.node d [] ch :: rest)) custom now).2.2
          = [[(Elem.node d [] ch, 0)]])) := by
  constructor
  · intro hit text anc n i hshort
    simp [checkNodeH, hshort]
  · intro cds now text d ch rest bd bsh hshort
    have key : ∀ (cds2 : List (String × Nat)) (t2 : String),
        findButton cds2 now (Elem.node bd bsh (Elem.node d [] ch :: rest)) t2
          = some [(Elem.node d [] ch, 0)] := by
      intro cds2 t2
      simp [findButton, findButtonH, walkIdxH, walkElemH, walkShadowTopH, checkNodeH,
        hshort]
    refine ⟨key cds text, ?_⟩
    intro st custom hp hpanel
    have h1 : firstHit (pruneCooldowns st.cooldowns st.lastPrune now).1 now
        (Elem.node bd bsh (Elem.node d [] ch :: rest)) (buttonTexts custom)
        = some ("run", [(Elem.node d [] ch, 0)]) := by
      simp [buttonTexts, firstHit, key]
    constructor <;> simp [scanAndClick, hp, hpanel, h1]

/-- Data of a worst-case shortcut element: allow attribute, disabled, loading
class, agent class marker, 60-character text. -/
def c9d : ElemData :=
  { tag := "BUTTON", dataAction := some "always-allow", disabled := true,
    classes := ["agent-panel", "loading"],
    ownText := "xxxxxxxxxxxxxxxxxxxxxxxxxxxxxxxxxxxxxxxxxxxxxxxxxxxxxxxxxxxx" }

def c9btn : Elem := Elem.node c9d [] []

def c9bd : ElemData := { tag := "BODY" }

def c9tree : Elem := Elem.node c9bd [] [c9btn]

/-- A ledger holding a fresh cooldown entry for the shortcut element itself. -/
def c9cds : List (String × Nat) := [(fingerprint [(c9btn, 0)], 999)]

/-- C9 witness: the disabled, loading, long-text shortcut button with a fresh
cooldown entry is still returned and clicked. -/
theorem C9_shortcut_witness :
    shortcutHit c9btn = true ∧ c9btn.data.disabled = true ∧
    50 < jsLen (textOf c9btn) ∧
    checkNodeH (fun _ => true) "allow" [] c9btn 0 = ScanR.found [(c9btn, 0)] ∧
    findButton c9cds 1000 c9tree "allow" = some [(c9btn, 0)] ∧
    (scanAndClick ⟨c9cds, 0, false⟩ c9tree [] 1000).1 = some "clicked:run" ∧
    (scanAndClick ⟨c9cds, 0, false⟩ c9tree [] 1000).2.2 = [[(c9btn, 0)]] :=
  ⟨rfl, rfl, by decide,
   C9_shortcut.1 (fun _ => true) "allow" [] c9btn 0 rfl,
   (C9_shortcut.2 c9cds 1000 "allow" c9d [] [] c9bd [] rfl).1,
   ((C9_shortcut.2 c9cds 1000 "allow" c9d [] [] c9bd [] rfl).2 ⟨c9cds, 0, false⟩ []
     rfl rfl).1,
   ((C9_shortcut.2 c9cds 1000 "allow" c9d [] [] c9bd [] rfl).2 ⟨c9cds, 0, false⟩ []
     rfl rfl).2⟩

/-! Claim C6: idempotent injection. -/

/-- C6: evaluating the payload in a context where the observer marker is set
returns the idempotency status and changes nothing — no installation, no
observer wiring, no click. -/
theorem C6_idempotent (ctx : Ctx) (body : Elem) (custom : List String) (now : Nat)
    (h : ctx.observerActive = true) :
    evalScript ctx body custom now = ("already-active", ctx, []) := by
  simp [evalScript, h]

def c6ctx : Ctx := ⟨true, false, 1, ⟨[], 0, false⟩⟩

/-- C6 witness at a concrete already-installed context. -/
theorem C6_idempotent_witness :
    c6ctx.observerActive = true ∧
    evalScript c6ctx c1tree [] 5 = ("already-active", c6ctx, []) :=
  ⟨rfl, C6_idempotent c6ctx c1tree [] 5 rfl⟩

/-! Claim C8: the status vocabulary observed by the Session Manager. -/

def c8ctx : Ctx := ⟨false, false, 0, ⟨[], 0, false⟩⟩

def c8btn : Elem := Elem.node { tag := "BUTTON", ownText := "Run" } [] []

def c8tree : Elem := Elem.node { tag := "BODY" } [] [c4panel, c8btn]

/-- C8 counterexample: on a fresh install whose initial scan finds and clicks
a run button, the value returned to the Session Manager is the install
status, not a clicked phrase — the initial scanAndClick result is discarded
by the payload. -/
theorem C8_counterexample :
    (evalScript c8ctx c8tree [] 1000).1 = "observer-installed" ∧
    (evalScript c8ctx c8tree [] 1000).2.2.length = 1 ∧
    (evalScript c8ctx c8tree [] 1000).1 ≠ "clicked:run" :=
  ⟨rfl, rfl, by decide⟩

/-- C8 amended: the evaluation value observed by the Session Manager is
always exactly already-active or observer-installed; clicked phrases and the
no-match sentinel are internal scan results that are never returned. -/
theorem C8_amended (ctx : Ctx) (body : Elem) (custom : List String) (now : Nat) :
    (evalScript ctx body custom now).1 = "already-active" ∨
    (evalScript ctx body custom now).1 = "observer-installed" := by
  cases hctx : ctx.observerActive
  · right; simp [evalScript, hctx]
  · left; simp [evalScript, hctx]

/-! Claim C5: catalog-order priority and the two passes. -/

/-- The ledger a scan at a given time consults, after the prune step. -/
def scanLedger (st : MatcherState) (now : Nat) : List (String × Nat) :=
  (pruneCooldowns st.cooldowns st.lastPrune now).1

/-- firstHit returns the earliest catalog phrase with a non-null search. -/
theorem firstHit_min (cds : List (String × Nat)) (now : Nat) (body : Elem)
    (ts : List String) (i : Nat) (A : String) (chA : List (Elem × Nat))
    (hA : ts.get? i = some A) (hfA : findButton cds now body A = some chA) :
    ∃ (k : Nat) (C : String) (chC : List (Elem × Nat)),
      k ≤ i ∧ ts.get? k = some C ∧ findButton cds now body C = some chC ∧
      firstHit cds now body ts = some (C, chC) := by
  induction ts generalizing i with
  | nil => simp at hA
  | cons t ts ih =>
    cases hft : findButton cds now body t with
    | some ch0 =>
      exact ⟨0, t, ch0, Nat.zero_le _, rfl, hft, by simp [firstHit, hft]⟩
    | none =>
      cases i with
      | zero =>
        rw [List.get?_cons_zero] at hA
        have ht := Option.some.inj hA
        subst ht
        rw [hfA] at hft
        exact Option.noConfusion hft
      | succ i =>
        rw [List.get?_cons_succ] at hA
        obtain ⟨k, C, chC, hk, hgC, hfC, hfh⟩ := ih i hA
        exact ⟨k + 1, C, chC, by omega, by rw [List.get?_cons_succ]; exact hgC, hfC,
          by simp [firstHit, hft, hfh]⟩

/-- scanAndClick, unfolded on an unpaused scan inside the panel. -/
theorem scanAndClick_eq (st : MatcherState) (body : Elem) (custom : List String)
    (now : Nat) (hp : st.paused = false) (hpanel : isAgentPanel body = true) :
    scanAndClick st body custom now =
      match firstHit (scanLedger st now) now body (buttonTexts custom) with
      | some (t, ch) =>
        (some ("clicked:" ++ t),
         ⟨cdInsert (fingerprint ch) now (scanLedger st now),
          (pruneCooldowns st.cooldowns st.lastPrune now).2, st.paused⟩, [ch])
      | none =>
        match firstHit (scanLedger st now) now body expandTexts with
        | some (t, ch) =>
          (some ("clicked:" ++ t),
           ⟨cdInsert (fingerprint ch) now (scanLedger st now),
            (pruneCooldowns st.cooldowns st.lastPrune now).2, st.paused⟩, [ch])
        | none =>
          (none, ⟨scanLedger st now,
            (pruneCooldowns st.cooldowns st.lastPrune now).2, st.paused⟩, []) := by
  simp [scanAndClick, hp, hpanel, scanLedger]

/-- C5: a scan clicks at most one element, and whenever some action phrase at
catalog index i has a qualifying match, the scan clicks exactly the element of
a (the first) matching action phrase at index k ≤ i — so pass 2 is reached
only when every action phrase failed, and a later phrase is never clicked over
an earlier matching one. -/
theorem C5_priority (st : MatcherState) (body : Elem) (custom : List String)
    (now : Nat) (hp : st.paused = false) (hpanel : isAgentPanel body = true) :
    (scanAndClick st body custom now).2.2.length ≤ 1 ∧
    (∀ (i : Nat) (A : String) (chA : List (Elem × Nat)),
      (buttonTexts custom).get? i = some A →
      findButton (scanLedger st now) now body A = some chA →
      ∃ (k : Nat) (C : String) (chC : List (Elem × Nat)),
        k ≤ i ∧ (buttonTexts custom).get? k = some C ∧
        findButton (scanLedger st now) now body C = some chC ∧
        (scanAndClick st body custom now).1 = some ("clicked:" ++ C) ∧
        (scanAndClick st body custom now).2.2 = [chC]) := by
  constructor
  · rw [scanAndClick_eq st body custom now hp hpanel]
    cases h1 : firstHit (scanLedger st now) now body (buttonTexts custom) with
    | some p => cases p; simp
    | none =>
      cases h2 : firstHit (scanLedger st now) now body expandTexts with
      | some p => cases p; simp
      | none => simp
  · intro i A chA hA hfA
    obtain ⟨k, C, chC, hk, hgC, hfC, hfh⟩ :=
      firstHit_min (scanLedger st now) now body (buttonTexts custom) i A chA hA hfA
    refine ⟨k, C, chC, hk, hgC, hfC, ?_, ?_⟩ <;>
      rw [scanAndClick_eq st body custom now hp hpanel] <;> simp [hfh]

def c5allow : Elem := Elem.node { tag := "BUTTON", ownText := "Always Allow" } [] []

def c5run : Elem := Elem.node { tag := "BUTTON", ownText := "Run" } [] []

def c5tree : Elem := Elem.node { tag := "BODY" } [] [c4panel, c5allow, c5run]

/-- C5 witness: with both an always-allow and a run button present (allow
first in the tree), the single click of the scan goes to a phrase no later in
the catalog than always allow — concretely run, catalog index 0. -/
theorem C5_priority_witness :
    (⟨[], 0, false⟩ : MatcherState).paused = false ∧ isAgentPanel c5tree = true ∧
    (scanAndClick ⟨[], 0, false⟩ c5tree [] 1000).1 = some "clicked:run" ∧
    (scanAndClick ⟨[], 0, false⟩ c5tree [] 1000).2.2.length ≤ 1 ∧
    (∃ (k : Nat) (C : String) (chC : List (Elem × Nat)),
      k ≤ 2 ∧ (buttonTexts []).get? k = some C ∧
      findButton (scanLedger ⟨[], 0, false⟩ 1000) 1000 c5tree C = some chC ∧
      (scanAndClick ⟨[], 0, false⟩ c5tree [] 1000).1 = some ("clicked:" ++ C) ∧
      (scanAndClick ⟨[], 0, false⟩ c5tree [] 1000).2.2 = [chC]) :=
  ⟨rfl, rfl, rfl,
   (C5_priority ⟨[], 0, false⟩ c5tree [] 1000 rfl rfl).1,
   (C5_priority ⟨[], 0, false⟩ c5tree [] 1000 rfl rfl).2 2 "always allow"
     [(c5allow, 1)] (by decide) rfl⟩

/-! Claim C7: cooldown fingerprints and suppression. -/

def c7btn : Elem := Elem.node { tag := "BUTTON", ownText := "Accept" } [] []

/-- Two structurally distinct positions holding identical accept buttons. -/
def c7tree : Elem := Elem.node { tag := "BODY" } [] [c4panel, c7btn, c7btn]

/-- C7 counterexample: clicking the first accept button records a cooldown
under its own fingerprint only, the second button's fingerprint differs and
carries no ledger entry — yet one second later the scan clicks nothing at
all, because findButton returns none the moment it meets the cooled-down
first button, never reaching the second. -/
theorem C7_counterexample :
    (scanAndClick ⟨[], 0, false⟩ c7tree [] 1000).1 = some "clicked:accept" ∧
    (scanAndClick ⟨[], 0, false⟩ c7tree [] 1000).2.2.map fingerprint
      = [fingerprint [(c7btn, 1)]] ∧
    fingerprint [(c7btn, 2)] ≠ fingerprint [(c7btn, 1)] ∧
    (scanAndClick ⟨[], 0, false⟩ c7tree [] 1000).2.1.cooldowns.lookup
      (fingerprint [(c7btn, 2)]) = none ∧
    findButton [] 2000 c7tree "accept" = some [(c7btn, 1)] ∧
    (scanAndClick (scanAndClick ⟨[], 0, false⟩ c7tree [] 1000).2.1 c7tree [] 2000).1
      = none ∧
    (scanAndClick (scanAndClick ⟨[], 0, false⟩ c7tree [] 1000).2.1 c7tree []
      2000).2.2.length = 0 :=
  ⟨rfl, rfl, by decide, rfl, rfl, rfl, rfl⟩

/-- Ledger lookup after dropping every entry of a given key. -/
theorem lookup_filter_ne (k fp : String) (h : fp ≠ k) :
    ∀ cds : List (String × Nat),
      (cds.filter (fun p => !(p.1 == k))).lookup fp = cds.lookup fp := by
  intro cds
  induction cds with
  | nil => rfl
  | cons a rest ih =>
    by_cases hak : a.1 = k
    · have hb : (a.1 == k) = true := beq_iff_eq.mpr hak
      have hfb : (fp == a.1) = false := by
        refine beq_eq_false_iff_ne.mpr ?_
        rw [hak]; exact h
      simp [List.filter_cons, hb, List.lookup, hfb, ih]
    · have hb : (a.1 == k) = false := beq_eq_false_iff_ne.mpr hak
      cases hfa : fp == a.1 with
      | true => simp [List.filter_cons, hb, List.lookup, hfa]
      | false => simp [List.filter_cons, hb, List.lookup, hfa, ih]

/-- Ledger lookup after a JS assignment to a different key. -/
theorem lookup_cdInsert_ne (k : String) (v : Nat) (cds : List (String × Nat))
    (fp : String) (h : fp ≠ k) :
    (cdInsert k v cds).lookup fp = cds.lookup fp := by
  have hb : (fp == k) = false := beq_eq_false_iff_ne.mpr h
  simp [cdInsert, List.lookup, hb, lookup_filter_ne k fp h cds]

/-- Cooldown test after a JS assignment to a different fingerprint. -/
theorem cooldownHit_cdInsert_ne (cds : List (String × Nat)) (t0 now : Nat)
    (text k fp : String) (h : fp ≠ k) :
    cooldownHit (cdInsert k t0 cds) now text fp = cooldownHit cds now text fp := by
  unfold cooldownHit
  rw [lookup_cdInsert_ne k t0 cds fp h]

/-- C7 amended: recording a click under one fingerprint never changes the
node check of any element whose own fingerprint differs — the recorded entry
can only suppress through the element's own ledger lookup; suppression of the
second button in the counterexample happens solely because the search aborts
on the first, cooled-down match. -/
theorem C7_amended (cds : List (String × Nat)) (t0 now : Nat) (text : String)
    (anc : List (Elem × Nat)) (n : Elem) (i : Nat) (k : String)
    (hne : fingerprint (closestChain ((n, i) :: anc)) ≠ k) :
    checkNodeH (fun fp => cooldownHit (cdInsert k t0 cds) now text fp) text anc n i
      = checkNodeH (fun fp => cooldownHit cds now text fp) text anc n i := by
  unfold checkNodeH
  cases hc : closestChain ((n, i) :: anc) with
  | nil => simp [hc]
  | cons ck rest =>
    rw [hc] at hne
    simp only [hc,
      cooldownHit_cdInsert_ne cds t0 now text k (fingerprint (ck :: rest)) hne]

/-- C7 amended witness: the second accept button's node check is identical
before and after the first button's cooldown entry is recorded. -/
theorem C7_amended_witness :
    fingerprint (closestChain [(c7btn, 2)]) ≠ fingerprint [(c7btn, 1)] ∧
    checkNodeH
      (fun fp =>
        cooldownHit (cdInsert (fingerprint [(c7btn, 1)]) 500 []) 1000 "accept" fp)
      "accept" [] c7btn 2
      = checkNodeH (fun fp => cooldownHit [] 1000 "accept" fp) "accept" [] c7btn 2 :=
  ⟨by decide,
   C7_amended [] 500 1000 "accept" [] c7btn 2 (fingerprint [(c7btn, 1)]) (by decide)⟩

/-! Claim C10: cooldown pruning preserves scan decisions. -/

/-- A key absent from a ledger's key list looks up to none. -/
theorem lookup_keys_none :
    ∀ (l : List (String × Nat)) (a : String),
      a ∉ l.map Prod.fst → l.lookup a = none := by
  intro l
  induction l with
  | nil => intro a _; rfl
  | cons p rest ih =>
    intro a ha
    have h1 : a ≠ p.1 := by
      intro he
      exact ha (by simp [he])
    have hb : (a == p.1) = false := beq_eq_false_iff_ne.mpr h1
    have h2 : a ∉ rest.map Prod.fst := by
      intro hm
      exact ha (by simp [hm])
    calc ((p.1, p.2) :: rest).lookup a = rest.lookup a := by simp [List.lookup, hb]
    _ = none := ih a h2

/-- Lookup in a filtered ledger with distinct keys: the entry survives iff it
passes the predicate. -/
theorem lookup_filter_char :
    ∀ (l : List (String × Nat)), (l.map Prod.fst).Nodup →
      ∀ (q : String × Nat → Bool) (fp : String),
        (l.filter q).lookup fp =
          (l.lookup fp).bind (fun v => if q (fp, v) then some v else none) := by
  intro l
  induction l with
  | nil => intro _ q fp; rfl
  | cons a rest ih =>
    obtain ⟨a1, a2⟩ := a
    intro hnd q fp
    have hnd1 : a1 ∉ rest.map Prod.fst ∧ (rest.map Prod.fst).Nodup := by
      rw [List.map_cons, List.nodup_cons] at hnd
      exact hnd
    obtain ⟨hna, hnd'⟩ := hnd1
    by_cases hfa : fp = a1
    · subst hfa
      by_cases hq : q (fp, a2) = true
      · simp [List.filter_cons, hq, List.lookup]
      · have hq' : q (fp, a2) = false := by simpa using hq
        have h1 : (rest.filter q).lookup fp = none := by
          apply lookup_keys_none
          intro hm
          apply hna
          obtain ⟨p, hp, hpe⟩ := List.mem_map.mp hm
          exact List.mem_map.mpr ⟨p, List.mem_of_mem_filter hp, hpe⟩
        simp [List.filter_cons, hq', List.lookup, h1]
    · have hb : (fp == a1) = false := beq_eq_false_iff_ne.mpr hfa
      by_cases hq : q (a1, a2) = true
      · simp [List.filter_cons, hq, List.lookup, hb, ih hnd' q fp]
      · have hq' : q (a1, a2) = false := by simpa using hq
        simp [List.filter_cons, hq', List.lookup, hb, ih hnd' q fp]

/-- The per-window cooldown never exceeds the reveal window. -/
theorem cooldownFor_le (text : String) : cooldownFor text ≤ 8000 := by
  unfold cooldownFor EXPAND_COOLDOWN_MS COOLDOWN_MS
  split <;> omega

/-- The cooldown test is unchanged by pruning (entries it removes are far
older than any window). -/
theorem cooldownHit_prune (cds : List (String × Nat))
    (hnd : (cds.map Prod.fst).Nodup) (lp now : Nat) (text fp : String) :
    cooldownHit (pruneCooldowns cds lp now).1 now text fp
      = cooldownHit cds now text fp := by
  unfold pruneCooldowns
  by_cases hg : (now : Int) - (lp : Int) < (PRUNE_INTERVAL_MS : Int)
  · simp [hg]
  · simp only [hg, if_false]
    have hlk := lookup_filter_char cds hnd
      (fun p => !(decide ((now : Int) - (p.2 : Int) > ((EXPAND_COOLDOWN_MS : Int) * 2)))) fp
    cases hl : cds.lookup fp with
    | none =>
      have hfl : ((cds.filter
          (fun p => !(decide ((now : Int) - (p.2 : Int) >
            ((EXPAND_COOLDOWN_MS : Int) * 2))))).lookup fp) = none := by
        rw [hlk, hl]; rfl
      unfold cooldownHit
      rw [hfl, hl]
    | some v =>
      by_cases hq : (now : Int) - (v : Int) > ((EXPAND_COOLDOWN_MS : Int) * 2)
      · have hfl : ((cds.filter
            (fun p => !(decide ((now : Int) - (p.2 : Int) >
              ((EXPAND_COOLDOWN_MS : Int) * 2))))).lookup fp) = none := by
          rw [hlk, hl]; simp; omega
        have hlt :
            (decide ((now : Int) - ((v : Nat) : Int) < (cooldownFor text : Int))) = false := by
          apply decide_eq_false
          have hcf : (cooldownFor text : Int) ≤ 8000 := by
            exact_mod_cast cooldownFor_le text
          have h16 : ((EXPAND_COOLDOWN_MS : Int) * 2) = 16000 := by
            unfold EXPAND_COOLDOWN_MS; norm_num
          rw [h16] at hq
          omega
        unfold cooldownHit
        rw [hfl, hl]
        simp [hlt]
      · have hfl : ((cds.filter
            (fun p => !(decide ((now : Int) - (p.2 : Int) >
              ((EXPAND_COOLDOWN_MS : Int) * 2))))).lookup fp) = some v := by
          rw [hlk, hl]; simp; omega
        unfold cooldownHit
        rw [hfl, hl]

/-- findButton is unchanged by pruning. -/
theorem findButton_prune (cds : List (String × Nat))
    (hnd : (cds.map Prod.fst).Nodup) (lp now : Nat) (body : Elem) (text : String) :
    findButton (pruneCooldowns cds lp now).1 now body text
      = findButton cds now body text := by
  unfold findButton
  have h : (fun fp => cooldownHit (pruneCooldowns cds lp now).1 now text fp)
      = fun fp => cooldownHit cds now text fp := by
    funext fp
    exact cooldownHit_prune cds hnd lp now text fp
  rw [h]

/-- firstHit is unchanged by pruning. -/
theorem firstHit_prune (cds : List (String × Nat))
    (hnd : (cds.map Prod.fst).Nodup) (lp now : Nat) (body : Elem) :
    ∀ ts : List String,
      firstHit (pruneCooldowns cds lp now).1 now body ts = firstHit cds now body ts := by
  intro ts
  induction ts with
  | nil => rfl
  | cons t ts ih => simp [firstHit, findButton_prune cds hnd lp now body t, ih]

/-- A prune stamped at the current instant is a no-op (the 30s gate). -/
theorem pruneCooldowns_now (cds : List (String × Nat)) (now : Nat) :
    pruneCooldowns cds now now = (cds, now) := by
  unfold pruneCooldowns PRUNE_INTERVAL_MS
  norm_num

/-- C10: every ledger entry pruneCooldowns removes is older than 16000 ms,
twice the reveal window; consequently, over any ledger with distinct keys,
findButton and the click decision and click list of a scan are identical
whether or not pruning ran first. -/
theorem C10_prune :
    (∀ (cds : List (String × Nat)) (lp now : Nat) (p : String × Nat),
      p ∈ cds → p ∉ (pruneCooldowns cds lp now).1 →
      (now : Int) - (p.2 : Int) > 16000) ∧
    (∀ (cds : List (String × Nat)) (lp now : Nat) (body : Elem) (text : String),
      (cds.map Prod.fst).Nodup →
      findButton (pruneCooldowns cds lp now).1 now body text
        = findButton cds now body text) ∧
    (∀ (st : MatcherState) (body : Elem) (custom : List String) (now : Nat),
      (st.cooldowns.map Prod.fst).Nodup →
      (scanAndClick st body custom now).1
          = (scanAndClick ⟨st.cooldowns, now, st.paused⟩ body custom now).1 ∧
      (scanAndClick st body custom now).2.2
          = (scanAndClick ⟨st.cooldowns, now, st.paused⟩ body custom now).2.2) := by
  refine ⟨?_, ?_, ?_⟩
  · intro cds lp now p hin hout
    unfold pruneCooldowns at hout
    by_cases hg : (now : Int) - (lp : Int) < (PRUNE_INTERVAL_MS : Int)
    · simp [hg] at hout
      exact absurd hin hout
    · simp only [hg, if_false] at hout
      have : ¬ (p ∈ cds ∧
          (!(decide ((now : Int) - (p.2 : Int) > ((EXPAND_COOLDOWN_MS : Int) * 2)))) = true) := by
        intro hc
        exact hout (List.mem_filter.mpr hc)
      have h2 := by
        simpa [hin, EXPAND_COOLDOWN_MS] using this
      have h8 : ((8000 : Int) * 2) = 16000 := by norm_num
      omega
  · intro cds lp now body text hnd
    exact findButton_prune cds hnd lp now body text
  · intro st body custom now hnd
    have e1 : ∀ ts, firstHit (pruneCooldowns st.cooldowns st.lastPrune now).1
        now body ts = firstHit st.cooldowns now body ts :=
      firstHit_prune st.cooldowns hnd st.lastPrune now body
    cases hp : st.paused with
    | true => simp [scanAndClick, hp]
    | false =>
      cases hpanel : isAgentPanel body with
      | false => simp [scanAndClick, hp, hpanel]
      | true =>
        have hL := scanAndClick_eq st body custom now hp hpanel
        have hR := scanAndClick_eq ⟨st.cooldowns, now, false⟩ body custom now rfl hpanel
        rw [hL, hR]
        have hsl : scanLedger st now = (pruneCooldowns st.cooldowns st.lastPrune now).1 := rfl
        have hsr : scanLedger ⟨st.cooldowns, now, false⟩ now = st.cooldowns := by
          unfold scanLedger
          simp [pruneCooldowns_now]
        rw [hsl, hsr]
        rw [e1 (buttonTexts custom), e1 expandTexts]
        cases h1 : firstHit st.cooldowns now body (buttonTexts custom) with
        | some p => cases p; simp
        | none =>
          cases h2 : firstHit st.cooldowns now body expandTexts with
          | some p => cases p; simp
          | none => simp

/-- C10 witness: a concrete prune that removes a stale entry while the scan
decision is untouched. -/
theorem C10_prune_witness :
    (("a", 100) : String × Nat) ∈ [(("a", 100) : String × Nat)] ∧
    (("a", 100) : String × Nat) ∉ (pruneCooldowns [("a", 100)] 0 40000).1 ∧
    (40000 : Int) - ((100 : Nat) : Int) > 16000 ∧
    ((([(("a", 100) : String × Nat)]).map Prod.fst).Nodup) ∧
    findButton (pruneCooldowns [("a", 100)] 0 40000).1 40000 c5tree "run"
      = findButton [("a", 100)] 40000 c5tree "run" ∧
    (scanAndClick ⟨[("a", 100)], 0, false⟩ c5tree [] 40000).1
      = (scanAndClick ⟨[("a", 100)], 40000, false⟩ c5tree [] 40000).1 :=
  ⟨by decide, by decide,
   C10_prune.1 [("a", 100)] 0 40000 ("a", 100) (by decide) (by decide),
   by decide,
   C10_prune.2.1 [("a", 100)] 0 40000 c5tree "run" (by decide),
   (C10_prune.2.2 ⟨[("a", 100)], 0, false⟩ c5tree [] 40000 (by decide)).1⟩

/-! Claim C2: the pending-request ledger. -/

/-- Transport invariant: pending ids are distinct allocated ids, and every
allocated id is pending, resolved, or rejected. -/
def tInv (s : TransportState) : Prop :=
  s.pending.Nodup ∧ (∀ j ∈ s.pending, 1 ≤ j ∧ j ≤ s.msgId) ∧
  (∀ j, sentId s j → j ∈ s.pending ∨ j ∈ s.resolved ∨ j ∈ s.rejected)

instance sentId_dec (s : TransportState) (i : Nat) : Decidable (sentId s i) := by
  unfold sentId
  infer_instance

theorem tInv_init : tInv tInit := by
  refine ⟨List.nodup_nil, ?_, ?_⟩
  · intro j hj
    simp [tInit] at hj
  · intro j hs
    have h1 : 1 ≤ j := hs.1
    have h2 : j ≤ tInit.msgId := hs.2
    have h3 : tInit.msgId = 0 := rfl
    omega

theorem tInv_step (s : TransportState) (e : TEvent) (he : e ≠ TEvent.stop)
    (h : tInv s) : tInv (tstep s e) := by
  obtain ⟨hnd, hbound, hcover⟩ := h
  cases e with
  | send =>
    refine ⟨?_, ?_, ?_⟩
    · apply List.Nodup.append hnd (List.nodup_singleton _)
      intro a ha hb
      simp at hb
      subst hb
      have := hbound _ ha
      omega
    · intro j hj
      simp only [tstep] at hj ⊢
      rcases List.mem_append.mp hj with hj1 | hj2
      · have := hbound j hj1
        omega
      · simp at hj2
        omega
    · intro j hs
      simp only [tstep] at hs ⊢
      unfold sentId at hs
      simp only [] at hs
      by_cases hle : j ≤ s.msgId
      · rcases hcover j ⟨hs.1, hle⟩ with hp | hr | hj
        · exact Or.inl (List.mem_append.mpr (Or.inl hp))
        · exact Or.inr (Or.inl hr)
        · exact Or.inr (Or.inr hj)
      · have : j = s.msgId + 1 := by omega
        subst this
        exact Or.inl (List.mem_append.mpr (Or.inr (by simp)))
  | response i =>
    by_cases hip : i ∈ s.pending
    · simp only [tstep, if_pos hip]
      refine ⟨List.Nodup.filter _ hnd, ?_, ?_⟩
      · intro j hj
        exact hbound j (List.mem_of_mem_filter hj)
      · intro j hs
        rcases hcover j hs with hp | hr | hj
        · by_cases hji : j = i
          · subst hji
            exact Or.inr (Or.inl (by simp))
          · refine Or.inl (List.mem_filter.mpr ⟨hp, ?_⟩)
            simp [hji]
        · exact Or.inr (Or.inl (by simp [hr]))
        · exact Or.inr (Or.inr hj)
    · simpa [tstep, hip] using ⟨hnd, hbound, hcover⟩
  | timeout i =>
    by_cases hip : i ∈ s.pending
    · simp only [tstep, if_pos hip]
      refine ⟨List.Nodup.filter _ hnd, ?_, ?_⟩
      · intro j hj
        exact hbound j (List.mem_of_mem_filter hj)
      · intro j hs
        rcases hcover j hs with hp | hr | hj
        · by_cases hji : j = i
          · subst hji
            exact Or.inr (Or.inr (by simp))
          · refine Or.inl (List.mem_filter.mpr ⟨hp, ?_⟩)
            simp [hji]
        · exact Or.inr (Or.inl hr)
        · exact Or.inr (Or.inr (by simp [hj]))
    · simpa [tstep, hip] using ⟨hnd, hbound, hcover⟩
  | stop => exact absurd rfl he

theorem tInv_run : ∀ (es : List TEvent) (s : TransportState), tInv s →
    (∀ e ∈ es, e ≠ TEvent.stop) → tInv (trun s es) := by
  intro es
  induction es with
  | nil => intro s hs _; exact hs
  | cons e es ih =>
    intro s hs hn
    have h1 : tInv (tstep s e) := tInv_step s e (hn e (by simp)) hs
    have h2 : ∀ e2 ∈ es, e2 ≠ TEvent.stop := fun e2 he2 => hn e2 (by simp [he2])
    simpa [trun] using ih (tstep s e) h1 h2

/-- Resolved and rejected sets only grow. -/
theorem trun_mono : ∀ (es : List TEvent) (s : TransportState),
    (∀ i ∈ s.resolved, i ∈ (trun s es).resolved) ∧
    (∀ i ∈ s.rejected, i ∈ (trun s es).rejected) := by
  intro es
  induction es with
  | nil => intro s; exact ⟨fun i h => h, fun i h => h⟩
  | cons e es ih =>
    intro s
    have hstep : (∀ i ∈ s.resolved, i ∈ (tstep s e).resolved) ∧
        (∀ i ∈ s.rejected, i ∈ (tstep s e).rejected) := by
      cases e with
      | send => exact ⟨fun i h => h, fun i h => h⟩
      | response j =>
        by_cases hj : j ∈ s.pending
        · simp only [tstep, if_pos hj]
          exact ⟨fun i h => by simp [h], fun i h => h⟩
        · simp only [tstep, if_neg hj]
          exact ⟨fun i h => h, fun i h => h⟩
      | timeout j =>
        by_cases hj : j ∈ s.pending
        · simp only [tstep, if_pos hj]
          exact ⟨fun i h => h, fun i h => by simp [h]⟩
        · simp only [tstep, if_neg hj]
          exact ⟨fun i h => h, fun i h => h⟩
      | stop => exact ⟨fun i h => h, fun i h => h⟩
    refine ⟨?_, ?_⟩
    · intro i hi
      simpa [trun] using (ih (tstep s e)).1 i (hstep.1 i hi)
    · intro i hi
      simpa [trun] using (ih (tstep s e)).2 i (hstep.2 i hi)

/-- Firing the timers of a distinct list of pending ids rejects them all. -/
theorem settle_rejects : ∀ (l : List Nat) (s : TransportState), l.Nodup →
    (∀ i ∈ l, i ∈ s.pending) → ∀ i ∈ l, i ∈ (trun s (l.map TEvent.timeout)).rejected := by
  intro l
  induction l with
  | nil => intro s _ _ i hi; simp at hi
  | cons a l ih =>
    intro s hnd hsub i hi
    have ha : a ∈ s.pending := hsub a (by simp)
    have hnda : a ∉ l := (List.nodup_cons.mp hnd).1
    have hndl : l.Nodup := (List.nodup_cons.mp hnd).2
    have hstep : tstep s (TEvent.timeout a) =
        { s with pending := s.pending.filter (fun j => !(j == a)),
                 rejected := a :: s.rejected } := by
      simp [tstep, ha]
    have hrun : trun s ((a :: l).map TEvent.timeout)
        = trun (tstep s (TEvent.timeout a)) (l.map TEvent.timeout) := by
      simp [trun]
    rw [hrun]
    rcases List.mem_cons.mp hi with hia | hil
    · subst hia
      apply (trun_mono (l.map TEvent.timeout) (tstep s (TEvent.timeout i))).2
      rw [hstep]
      simp
    · apply ih (tstep s (TEvent.timeout a)) hndl ?_ i hil
      intro j hj
      rw [hstep]
      simp only [List.mem_filter]
      refine ⟨hsub j (by simp [hj]), ?_⟩
      have : j ≠ a := by
        intro he
        subst he
        exact hnda hj
      simp [this]

/-- C2 amended: as long as stop (or a channel close) never intervenes, every
id allocated by _send is pending, and letting every per-request timer fire
leaves each allocated id resolved or rejected; stop empties the pending map —
but, as the counterexample shows, without resolving or rejecting the
discarded requests. -/
theorem C2_amended :
    (∀ (es : List TEvent), TEvent.stop ∉ es →
      ∀ i, sentId (trun tInit es) i →
        i ∈ (settleAll (trun tInit es)).resolved ∨
        i ∈ (settleAll (trun tInit es)).rejected) ∧
    (∀ s : TransportState, (tstep s TEvent.stop).pending = []) := by
  constructor
  · intro es hes i hsent
    have hinv : tInv (trun tInit es) :=
      tInv_run es tInit tInv_init (fun e he => by
        intro hcontra
        subst hcontra
        exact hes he)
    obtain ⟨hnd, hbound, hcover⟩ := hinv
    rcases hcover i hsent with hp | hr | hj
    · exact Or.inr (settle_rejects _ _ hnd (fun j hj => hj) i hp)
    · exact Or.inl ((trun_mono _ _).1 i hr)
    · exact Or.inr ((trun_mono _ _).2 i hj)
  · intro s
    rfl

/-- C2 counterexample: a request sent just before stop() is left neither
resolved nor rejected — the map is cleared, its timer cancelled, and even a
late response or timeout for it is a no-op forever after. -/
theorem C2_counterexample :
    sentId (trun tInit [TEvent.send, TEvent.stop]) 1 ∧
    (trun tInit [TEvent.send, TEvent.stop]).pending = [] ∧
    1 ∉ (trun tInit [TEvent.send, TEvent.stop]).resolved ∧
    1 ∉ (trun tInit [TEvent.send, TEvent.stop]).rejected ∧
    (trun (trun tInit [TEvent.send, TEvent.stop])
        [TEvent.response 1, TEvent.timeout 1]).resolved = [] ∧
    (trun (trun tInit [TEvent.send, TEvent.stop])
        [TEvent.response 1, TEvent.timeout 1]).rejected = [] := by
  refine ⟨?_, rfl, ?_, ?_, rfl, rfl⟩ <;> decide

/-- C2 amended witness: one request sent on a stop-free trace, settled by its
own timer. -/
theorem C2_amended_witness :
    TEvent.stop ∉ [TEvent.send] ∧ sentId (trun tInit [TEvent.send]) 1 ∧
    (1 ∈ (settleAll (trun tInit [TEvent.send])).resolved ∨
     1 ∈ (settleAll (trun tInit [TEvent.send])).rejected) :=
  ⟨by decide, by decide, C2_amended.1 [TEvent.send] (by decide) 1 (by decide)⟩

end AutoAccept
